import Mathlib

/-
Verification of the discharge protocol core of the candid identity server.

The development shallowly embeds the Go source of
`internal/v1/discharge.go` (the discharge engine: `checkThirdPartyCaveat`,
`needLoginError`, `updateDischargeTime`, `Wait`, `DischargeTokenForUser`)
and the HTTP dispatch shell (`methodNotAllowed`, `notFound`).  External
collaborators (the errgo error library, the macaroon-bakery checkers and
oven, the store, and the meeting place) are modelled from their documented
contracts; each such definition says so in its doc comment.
-/

deriving instance DecidableEq for Except

namespace Candid

/-- Error codes, corresponding to the `params` error causes and the
httpbakery error codes used by the source. -/
inductive ErrCode where
  | notFound
  | badRequest
  | unauthorized
  | forbidden
  | methodNotAllowed
  | serviceUnavailable
  | interactionRequired
  | expired
  deriving DecidableEq, Repr

/-- An error value, embedding the `errgo` error chains built by the source:
a basic error has a message and an optional cause code; an
interaction-required error (from `httpbakery.NewInteractionRequiredError`)
additionally carries the visit and wait URLs and the underlying error. -/
inductive Err where
  | basic (message : String) (cause : Option ErrCode) : Err
  | interactionRequired (visitURL waitURL : String) (why : Err) : Err
  deriving DecidableEq, Repr

/-- The message of an error, as `Error()` would print it: an
httpbakery interaction-required error prints the underlying message. -/
def Err.message : Err → String
  | .basic m _ => m
  | .interactionRequired _ _ why => why.message

/-- The cause code of an error, as `errgo.Cause` would report it. -/
def Err.cause : Err → Option ErrCode
  | .basic _ c => c
  | .interactionRequired _ _ _ => some .interactionRequired

/-- A cause filter, embedding the `errgo` pass-cause arguments:
`errgo.Any` passes every cause, `errgo.Is(c1, …)` passes the listed ones. -/
inductive CauseFilter where
  | any
  | only (codes : List ErrCode)
  deriving DecidableEq, Repr

/-- Which cause survives a mask with the given filter (errgo semantics:
a cause not allowed by the filter is hidden). -/
def passCause : CauseFilter → Option ErrCode → Option ErrCode
  | .any, c => c
  | .only codes, some c => if c ∈ codes then some c else none
  | .only _, none => none

/-- `errgo.Mask(err, filter…)`: same message, cause filtered. -/
def errMask (e : Err) (f : CauseFilter) : Err :=
  .basic e.message (passCause f e.cause)

/-- `errgo.NoteMask(err, msg, filter…)`: message prefixed, cause filtered. -/
def errNoteMask (e : Err) (m : String) (f : CauseFilter) : Err :=
  .basic (m ++ ": " ++ e.message) (passCause f e.cause)

/-- `errgo.Notef(err, msg)`: message prefixed, cause hidden. -/
def errNotef (e : Err) (m : String) : Err :=
  .basic (m ++ ": " ++ e.message) none

/-- `errgo.Newf(msg)`: a fresh error with no cause. -/
def errNewf (m : String) : Err := .basic m none

/-- `errgo.WithCausef(nil, cause, msg)`: a fresh error with the given cause. -/
def errWithCausef (m : String) (c : ErrCode) : Err := .basic m (some c)

/-- First-party caveats produced by the caveat constructors the source
uses: `idmclient.UserDeclaration` (a declared caveat on the `username`
key), `checkers.TimeBeforeCaveat` and `httpbakery.ClientOriginCaveat`. -/
inductive Caveat where
  | declared (key value : String)
  | timeBefore (t : Nat)
  | clientOrigin (origin : String)
  deriving DecidableEq, Repr

/-- The condition string of a first-party caveat, per the bakery checkers
vocabulary. -/
def Caveat.condition : Caveat → String
  | .declared k v => "declared " ++ k ++ " " ++ v
  | .timeBefore t => "time-before " ++ toString t
  | .clientOrigin o => "origin " ++ o

/-- `idmclient.UserDeclaration(user)`: a declared caveat for the
`username` key. -/
def userDeclaration (user : String) : Caveat := .declared "username" user

/-- `checkers.TimeBeforeCaveat(t)`. -/
def timeBeforeCaveat (t : Nat) : Caveat := .timeBefore t

/-- `httpbakery.ClientOriginCaveat(origin)`. -/
def clientOriginCaveat (origin : String) : Caveat := .clientOrigin origin

/-- `Namespace().ResolveCaveat`: namespace resolution of a first-party
caveat; the resolved caveat keeps the same condition payload, so it is the
identity on this model. -/
def resolveCaveat (c : Caveat) : Caveat := c

/-- Split a character list at its first whitespace character: returns the
leading token and the remainder after that single separator. -/
def splitFirstToken : List Char → List Char × List Char
  | [] => ([], [])
  | c :: cs =>
    if c.isWhitespace then ([], cs)
    else
      let p := splitFirstToken cs
      (c :: p.1, p.2)

/-- Modelled from the spec: `checkers.ParseCaveat` of the external
macaroon-bakery library, which is not part of this repository.  Per the
spec, a condition is parsed into its first whitespace-delimited token (the
condition name) and the remainder of the string (the arguments); an empty
condition, or one starting with whitespace, does not parse. -/
def parseCaveat (s : String) : Except String (String × String) :=
  match s.toList with
  | [] => .error "empty caveat"
  | c :: _ =>
    if c.isWhitespace then .error "caveat starts with space character"
    else
      let p := splitFirstToken s.toList
      .ok (String.mk p.1, String.mk p.2)

/-- `strings.Fields`: split a string around runs of whitespace, dropping
empty fields. -/
def fields (s : String) : List String :=
  (s.split Char.isWhitespace).filter (fun t => t ≠ "")

/-- Modelled from the spec: `store.ActionDischargeFor`, the action of the
admin-only delegated-discharge operation (`DischargeForOp`); the store
package is not part of the given sources. -/
def actionDischargeFor : String := "dischargeFor"

/-- An operation, `bakery.Op`: the reserved `bakery.LoginOp` or a
store-global operation `store.GlobalOp(action)`. -/
inductive Op where
  | loginOp
  | globalOp (action : String)
  deriving DecidableEq, Repr

/-- An identity as the engine sees it: `Id()` and the ACL-identity
`Allow(groups)` capability (which may fail with an error). -/
structure Identity where
  id : String
  allow : List String → Except String Bool

/-- `bakery.AuthInfo` as used by the engine: the authenticated identity. -/
structure AuthInfo where
  identity : Identity

/-- A macaroon of the external macaroon library, reduced to the list of
its first-party caveat condition strings. -/
structure Macaroon where
  caveats : List String := []
  deriving DecidableEq, Repr

/-- `Macaroon.AddFirstPartyCaveat`: appends a caveat condition. -/
def Macaroon.addFirstPartyCaveat (m : Macaroon) (cond : String) : Macaroon :=
  { caveats := m.caveats ++ [cond] }

/-- An HTTP cookie carrying a macaroon slice, as built by
`httpbakery.NewCookie`. -/
structure Cookie where
  name : String
  value : List Macaroon
  path : String := ""
  deriving DecidableEq, Repr

/-- The parts of an `http.Request` the embedded handlers read: method,
URL path, parsed form values, headers and cookies. -/
structure Request where
  method : String := ""
  path : String := ""
  form : String → String := fun _ => ""
  header : String → String := fun _ => ""
  cookies : List Cookie := []

/-- `bakery.ThirdPartyCaveatInfo`: the caveat bytes, its id and the
decoded condition string. -/
structure CaveatInfo where
  caveat : List Nat
  id : List Nat
  condition : String
  deriving DecidableEq, Repr

/-- `dischargeRequestInfo`, the rendezvous request-info record stored at
creation: original caveat, caveat id, condition and request origin. -/
structure DischargeRequestInfo where
  caveat : List Nat
  caveatId : List Nat
  condition : String
  origin : String
  deriving DecidableEq, Repr

/-- Modelled from the spec: the meeting `Place` (the meeting package is
not under the given sources).  A mapping from waitId to stored
request-info; fresh ids are drawn from a counter. -/
structure Place where
  counter : Nat := 0
  entries : List (String × DischargeRequestInfo) := []
  deriving DecidableEq, Repr

/-- Modelled from the spec: `place.NewRendezvous(info)` stores the
request-info under a fresh waitId and returns that id. -/
def newRendezvous (p : Place) (info : DischargeRequestInfo) : String × Place :=
  let waitId := "wait-" ++ toString p.counter
  (waitId, { counter := p.counter + 1, entries := p.entries ++ [(waitId, info)] })

/-- Look up the request-info stored under a waitId. -/
def lookupEntry (p : Place) (waitId : String) : Option DischargeRequestInfo :=
  (p.entries.find? (fun pr => pr.1 = waitId)).map (fun pr => pr.2)

/-- An identity record of the identity store; the engine only touches the
last-discharge timestamp. -/
structure IdentityRecord where
  username : String
  lastDischarge : Option Nat := none
  deriving DecidableEq, Repr

/-- The mutable state a discharge check touches: the meeting place and
the identity store contents. -/
structure St where
  place : Place := {}
  store : List IdentityRecord := []
  deriving DecidableEq, Repr

/-- The environment of one `checkThirdPartyCaveat` call: the outcomes of
the store calls it makes (`Authorize`, `GetIdentity`, the ACL behaviour of
store identities, the `UpdateIdentity` outcome, the rendezvous-creation
outcome), the current time, and the service location base URL. -/
structure Env where
  authorize : Op → Except Err AuthInfo
  getIdentity : String → Except Err IdentityRecord
  storeAllow : String → List String → Except String Bool := fun _ _ => .ok false
  updateErr : Option String := none
  newRendezvousErr : Option String := none
  now : Nat := 0
  location : String := ""

/-- Modelled from the spec: `store.Identity(username)`, the synthetic
store identity whose `Id()` is the username and whose ACL capability
consults the store (the store package is not under the given sources). -/
def storeIdentity (env : Env) (username : String) : Identity :=
  { id := username, allow := env.storeAllow username }

/-- Modelled from the spec: `h.serviceURL(path)` concatenates the
configured service location and the path (the handler helper is not under
the given sources; the spec has both URLs point at the configured
Location). -/
def serviceURL (location path : String) : String := location ++ path

/-- One hour, in seconds. -/
def hour : Nat := 3600

/-- `dischargeTokenDuration`: the validity of a discharge token. -/
def dischargeTokenDuration : Nat := 6 * hour

/-- `h.updateDischargeTime(username)`: sets the `lastdischarge` field of
the named identity to the current time; an update error is logged and
otherwise ignored, leaving the store unchanged. -/
def updateDischargeTime (env : Env) (st : St) (username : String) : St :=
  match env.updateErr with
  | some _ => st
  | none =>
    { st with store := st.store.map fun r =>
        if r.username = username then { r with lastDischarge := some env.now } else r }

/-- `needLoginError(h, req, info, why)`: creates a rendezvous for the
request info and returns an interaction-required error carrying the login
and wait URLs and the underlying error; a rendezvous-creation failure is
returned annotated instead. -/
def needLoginError (env : Env) (st : St) (info : DischargeRequestInfo) (why : Err) :
    Err × St :=
  match env.newRendezvousErr with
  | some m => (errNotef (errNewf m) "cannot make rendezvous", st)
  | none =>
    let r := newRendezvous st.place info
    let visitURL := serviceURL env.location ("/v1/login?waitid=" ++ r.1)
    let waitURL := serviceURL env.location ("/v1/wait?waitid=" ++ r.1)
    (.interactionRequired visitURL waitURL why, { st with place := r.2 })

/-- The operation `checkThirdPartyCaveat` requires: `LoginOp`, or the
global discharge-for operation when the `discharge-for-user` form
parameter is non-empty. -/
def selectedOp (dischargeForUser : String) : Op :=
  if dischargeForUser = "" then .loginOp else .globalOp actionDischargeFor

/-- `checkers.ErrCaveatNotRecognized`. -/
def errCaveatNotRecognized : Err := .basic "caveat not recognized" none

/-- Surround a string with double quotes, as the `%q` format verb does. -/
def quoteStr (s : String) : String := "\"" ++ s ++ "\""

/-- The outcome of one `checkThirdPartyCaveat` call: the returned caveats
or error, the resulting state, and the identities for which
`updateDischargeTime` was invoked. -/
structure CheckOut where
  result : Except Err (List Caveat)
  st : St
  updateCalls : List String := []
  deriving DecidableEq

/-- The condition switch of `checkThirdPartyCaveat`:
`is-authenticated-user` emits the declared-username and 24-hour
time-before caveats; `is-member-of` checks the identity's ACL capability
over the whitespace-split arguments, emitting no caveats on success;
anything else is not recognized. -/
def dispatchCondition (env : Env) (dischargeForUser : String) (ident : Identity)
    (cond args : String) : Except Err (List Caveat) :=
  if cond = "is-authenticated-user" then
    let user := if dischargeForUser = "" then ident.id else dischargeForUser
    .ok [userDeclaration user, timeBeforeCaveat (env.now + 24 * hour)]
  else if cond = "is-member-of" then
    match ident.allow (fields args) with
    | .error e => .error (errNotef (errNewf e) "cannot check group membership")
    | .ok true => .ok []
    | .ok false => .error (errNewf "user is not a member of required groups")
  else .error errCaveatNotRecognized

/-- The caveat-dispatch tail of `checkThirdPartyCaveat` (source lines
80-108): parse the condition, dispatch on the condition name, and on
success update the last-discharge time of the identity in effect. -/
def dispatchCaveat (env : Env) (st : St) (dischargeForUser : String)
    (ident : Identity) (ci : CaveatInfo) : CheckOut :=
  match parseCaveat ci.condition with
  | .error pe =>
    { result := .error (.basic
        ("cannot parse caveat " ++ quoteStr ci.condition ++ ": " ++ pe)
        (some .badRequest)),
      st := st }
  | .ok (cond, args) =>
    match dispatchCondition env dischargeForUser ident cond args with
    | .error e => { result := .error e, st := st }
    | .ok cavs =>
      { result := .ok cavs
        st := updateDischargeTime env st ident.id
        updateCalls := [ident.id] }

/-- `checkThirdPartyCaveat(ctx, h, req, ci)`: select the required
operation from the `discharge-for-user` form parameter, authorize the
request for it (on failure returning the need-login error), when
delegating verify the named user exists (`ErrNotFound` passing through)
and substitute the synthetic store identity for it, then dispatch on the
caveat condition. -/
def checkThirdPartyCaveat (env : Env) (st : St) (req : Request) (ci : CaveatInfo) :
    CheckOut :=
  let dischargeForUser := req.form "discharge-for-user"
  match env.authorize (selectedOp dischargeForUser) with
  | .error err =>
    let info : DischargeRequestInfo :=
      { caveat := ci.caveat, caveatId := ci.id, condition := ci.condition,
        origin := req.header "Origin" }
    let r := needLoginError env st info err
    { result := .error r.1, st := r.2 }
  | .ok authInfo =>
    if dischargeForUser = "" then
      dispatchCaveat env st dischargeForUser authInfo.identity ci
    else
      match env.getIdentity dischargeForUser with
      | .error e => { result := .error (errMask e (.only [.notFound])), st := st }
      | .ok _ => dispatchCaveat env st dischargeForUser (storeIdentity env dischargeForUser) ci

/-- The login result delivered through the rendezvous: either an error or
an identity macaroon slice. -/
structure LoginResult where
  error : Option Err := none
  identityMacaroon : List Macaroon := []
  deriving DecidableEq, Repr

/-- `waitRequest`: the parsed form of `GET /v1/wait`. -/
structure WaitRequest where
  waitId : String
  deriving DecidableEq, Repr

/-- A `bakery.Macaroon` as minted by the oven or produced by
`bakery.Discharge`: its first-party caveats and the operations it is
bound to. -/
structure BakeryMacaroon where
  caveats : List Caveat := []
  ops : List Op := []
  deriving DecidableEq, Repr

/-- `waitResponse`: the discharge macaroon and the discharge token. -/
structure WaitResponse where
  macaroon : BakeryMacaroon
  dischargeToken : List Macaroon
  deriving DecidableEq, Repr

/-- The observable outcome of the `Wait` handler: a response together
with the cookies set on the reply, an error, or a runtime panic. -/
inductive WaitOutcome where
  | ok (resp : WaitResponse) (setCookies : List Cookie)
  | err (e : Err)
  | panicked (message : String)
  deriving DecidableEq, Repr

/-- The environment of one `Wait` call: the outcome of `place.Wait` and
the outcome of the external `bakery.Discharge` (which receives the
request as enriched by the handler, plus the caveat id and bytes). -/
structure WaitEnv where
  waitResult : String → Except Err (DischargeRequestInfo × LoginResult)
  discharge : Request → List Nat → List Nat → Except Err BakeryMacaroon

/-- Modelled from the spec: `place.Wait(waitId)` of the meeting package
(not under the given sources) returns the stored request-info together
with the login result once one is delivered; an unknown or expired id
yields the expired error. -/
def placeWait (p : Place) (results : String → Option LoginResult) (waitId : String) :
    Except Err (DischargeRequestInfo × LoginResult) :=
  match lookupEntry p waitId, results waitId with
  | some info, some login => .ok (info, login)
  | _, _ => .error (errWithCausef "rendezvous has expired" .expired)

/-- `httpbakery.NewCookie` followed by the handler's renaming: a cookie
named `macaroon-identity` holding the macaroon slice. -/
def newIdentityCookie (ms : List Macaroon) : Cookie :=
  { name := "macaroon-identity", value := ms, path := "" }

/-- The `Wait` handler (`serveWait`): reject an empty waitId; wait on the
rendezvous; propagate a login error; append the client-origin caveat of
the recorded request origin to the first identity macaroon (a Go index
expression that panics when the slice is empty); attach the macaroon
slice to the request as the `macaroon-identity` cookie; discharge the
original caveat; and return the discharge with the identity macaroon as
discharge token, also setting the cookie with path `/` on the response. -/
def waitHandler (env : WaitEnv) (req : Request) (w : WaitRequest) : WaitOutcome :=
  if w.waitId = "" then
    .err (errWithCausef "wait id parameter not found" .badRequest)
  else
    match env.waitResult w.waitId with
    | .error e => .err (errNotef e "cannot wait")
    | .ok (reqInfo, login) =>
      match login.error with
      | some le => .err (errNoteMask le "login failed" .any)
      | none =>
        let originCaveat := resolveCaveat (clientOriginCaveat reqInfo.origin)
        match login.identityMacaroon with
        | [] => .panicked "runtime error: index out of range"
        | m0 :: rest =>
          let m1 := m0.addFirstPartyCaveat originCaveat.condition
          let identityMacaroon := m1 :: rest
          let cookie := newIdentityCookie identityMacaroon
          let req1 := { req with cookies := req.cookies ++ [cookie] }
          match env.discharge req1 reqInfo.caveatId reqInfo.caveat with
          | .error e => .err (errNoteMask e "cannot discharge" .any)
          | .ok m =>
            .ok { macaroon := m, dischargeToken := identityMacaroon }
              [{ cookie with path := "/" }]

/-- The environment of one `DischargeTokenForUser` call: the identity
lookup outcome, the oven's minting outcome, and the current time. -/
structure DischargeTokenEnv where
  getIdentity : String → Except Err IdentityRecord
  mintErr : Option Err := none
  now : Nat := 0

/-- Modelled from the spec: `Oven.NewMacaroon(ctx, version, expiry,
caveats, ops)` of the external bakery library mints a macaroon bound to
the given operation that carries a time-before caveat for the expiry
together with the requested caveats; minting may fail. -/
def ovenNewMacaroon (mintErr : Option Err) (expiry : Nat) (cavs : List Caveat)
    (op : Op) : Except Err BakeryMacaroon :=
  match mintErr with
  | some e => .error e
  | none => .ok { caveats := timeBeforeCaveat expiry :: cavs, ops := [op] }

/-- `DischargeTokenForUser(p, r)`: look up the named identity (annotating
failures with "cannot get identity", the not-found cause passing
through), then mint a six-hour login macaroon declaring the username
(annotating minting failures with "cannot create discharge token", any
cause passing through). -/
def dischargeTokenForUser (env : DischargeTokenEnv) (username : String) :
    Except Err BakeryMacaroon :=
  match env.getIdentity username with
  | .error e => .error (errNoteMask e "cannot get identity" (.only [.notFound]))
  | .ok _ =>
    match ovenNewMacaroon env.mintErr (env.now + dischargeTokenDuration)
        [userDeclaration username] .loginOp with
    | .error e => .error (errNoteMask e "cannot create discharge token" .any)
    | .ok m => .ok m

/-- The method set the fallback handler probes. -/
def httpMethods : List String := ["GET", "POST", "PUT", "DELETE", "HEAD", "PATCH"]

/-- The error written by the `notFound` fallback handler. -/
def notFoundError (req : Request) : Err :=
  errWithCausef ("not found: " ++ req.path) .notFound

/-- The error written by `methodNotAllowed` when another method matches. -/
def methodNotAllowedError (req : Request) : Err :=
  errWithCausef (req.method ++ " not allowed for " ++ req.path) .methodNotAllowed

/-- The probe loop of `methodNotAllowed`: try each method of the probe
set other than the request's own; on the first whose lookup yields a
handler for the request path, answer method-not-allowed; otherwise fall
through to the not-found error. -/
def methodNotAllowedLoop (lookup : String → String → Bool) (req : Request) :
    List String → Err
  | [] => notFoundError req
  | m :: ms =>
    if m = req.method then methodNotAllowedLoop lookup req ms
    else if lookup m req.path then methodNotAllowedError req
    else methodNotAllowedLoop lookup req ms

/-- `Server.methodNotAllowed`, parameterized by the router's `Lookup`
predicate (whether a handler is registered that matches the given method
and path). -/
def methodNotAllowed (lookup : String → String → Bool) (req : Request) : Err :=
  methodNotAllowedLoop lookup req httpMethods

/-! Concrete evaluation fixtures. -/

/-- A logged-in identity used to evaluate the engine on concrete input. -/
def bobAuth : AuthInfo := ⟨⟨"bob", fun _ => .ok true⟩⟩

/-- An environment in which authorization always succeeds as `bob` and
every identity lookup succeeds. -/
def envAuthBob : Env :=
  { authorize := fun _ => .ok bobAuth
    getIdentity := fun u => .ok { username := u } }

/-- A caveat-info fixture with the `is-authenticated-user` condition. -/
def ciAuthUser : CaveatInfo :=
  { caveat := [1], id := [2], condition := "is-authenticated-user" }

/-- The authorization error used by the need-login fixtures. -/
def authErrFix : Err := .basic "macaroon discharge required" (some .unauthorized)

/-- An environment in which authorization always fails. -/
def envAuthFail : Env :=
  { authorize := fun _ => .error authErrFix
    getIdentity := fun u => .ok { username := u }
    location := "https://candid.example" }

/-- A request fixture carrying an Origin header. -/
def reqWithOrigin : Request :=
  { header := fun k => if k = "Origin" then "https://app.example" else "" }

/-- A request fixture asking for a delegated discharge for `bob`. -/
def reqForBob : Request :=
  { form := fun k => if k = "discharge-for-user" then "bob" else "" }

/-- An environment in which authorization succeeds as the admin but the
named identity does not exist. -/
def envUserMissing : Env :=
  { authorize := fun _ => .ok ⟨⟨"admin", fun _ => .ok true⟩⟩
    getIdentity := fun u => .error (.basic ("user " ++ quoteStr u ++ " not found") (some .notFound)) }

/-- An identity that is not a member of any group. -/
def carolAuth : AuthInfo := ⟨⟨"carol", fun _ => .ok false⟩⟩

/-- An environment in which authorization succeeds as `carol`, who is in
no required group. -/
def envAuthCarol : Env :=
  { authorize := fun _ => .ok carolAuth
    getIdentity := fun u => .ok { username := u } }

/-- A caveat-info fixture with an `is-member-of` condition. -/
def ciMemberOf : CaveatInfo :=
  { caveat := [1], id := [2], condition := "is-member-of devs ops" }

/-- A caveat-info fixture with an unrecognized condition. -/
def ciFullMoon : CaveatInfo :=
  { caveat := [1], id := [2], condition := "is-full-moon tonight" }

/-- A rendezvous request-info fixture. -/
def infoFix : DischargeRequestInfo :=
  { caveat := [1], caveatId := [2], condition := "is-authenticated-user",
    origin := "https://app.example" }

/-- A login-result fixture carrying one identity macaroon. -/
def loginFix : LoginResult :=
  { identityMacaroon := [{ caveats := ["declared username alice"] }] }

/-- A wait environment over the place holding exactly the fixture
rendezvous, whose login result is the fixture login and whose discharge
always succeeds. -/
def waitEnvFix : WaitEnv :=
  { waitResult := placeWait (newRendezvous {} infoFix).2 (fun _ => some loginFix)
    discharge := fun _ _ _ => .ok {} }

/-- The wait request addressing the fixture rendezvous. -/
def waitReqFix : WaitRequest := { waitId := (newRendezvous {} infoFix).1 }

/-- A wait environment whose login result is successful but carries an
empty identity-macaroon slice. -/
def waitEnvEmptyMac : WaitEnv :=
  { waitResult := fun _ => .ok (infoFix, { error := none, identityMacaroon := [] })
    discharge := fun _ _ _ => .ok {} }

/-- A discharge-token environment whose identity lookup fails with a
generic (uncoded) error. -/
def dtEnvBoom : DischargeTokenEnv :=
  { getIdentity := fun _ => .error (errNewf "boom") }

/-- A discharge-token environment whose identity lookup succeeds. -/
def dtEnvOk : DischargeTokenEnv :=
  { getIdentity := fun u => .ok { username := u } }

/-- A router lookup fixture: only `GET /v1/wait` is registered. -/
def lookupFix : String → String → Bool :=
  fun m p => m == "GET" && p == "/v1/wait"

/-- A `PUT /v1/wait` request fixture. -/
def reqPutWait : Request := { method := "PUT", path := "/v1/wait" }

/-- A `GET /v1/nope` request fixture. -/
def reqGetNope : Request := { method := "GET", path := "/v1/nope" }

/-! Helper lemmas. -/

/-- A fresh rendezvous id is never the empty string. -/
theorem newRendezvous_id_ne_empty (p : Place) (info : DischargeRequestInfo) :
    (newRendezvous p info).1 ≠ "" := by
  unfold newRendezvous
  intro h
  simp only [String.ext_iff, String.data_append] at h
  simp at h

/-- Finding a key just appended to an association list that did not
contain it. -/
theorem find_append_fresh (l : List (String × DischargeRequestInfo)) (wid : String)
    (info : DischargeRequestInfo) (hfresh : ∀ pr ∈ l, pr.1 ≠ wid) :
    (l ++ [(wid, info)]).find? (fun pr => pr.1 = wid) = some (wid, info) := by
  induction l with
  | nil => simp
  | cons a l ih =>
    have ha : decide (a.1 = wid) = false :=
      decide_eq_false (hfresh a (List.mem_cons_self a l))
    simp only [List.cons_append, List.find?_cons, ha]
    exact ih (fun pr hpr => hfresh pr (List.mem_cons_of_mem a hpr))

/-- Looking up a freshly created rendezvous yields the request-info that
was stored at creation time. -/
theorem lookupEntry_newRendezvous (p : Place) (info : DischargeRequestInfo)
    (hfresh : ∀ pr ∈ p.entries, pr.1 ≠ (newRendezvous p info).1) :
    lookupEntry (newRendezvous p info).2 (newRendezvous p info).1 = some info := by
  unfold lookupEntry
  rw [show (newRendezvous p info).2.entries
      = p.entries ++ [((newRendezvous p info).1, info)] from rfl]
  rw [find_append_fresh p.entries (newRendezvous p info).1 info hfresh]
  rfl

/-! Claim C1. -/

/-- Claim C1: when the caveat condition is `is-authenticated-user` and
authorization (and, for a delegated discharge, the identity lookup)
succeeds, `checkThirdPartyCaveat` returns exactly two first-party
caveats: a declared-username caveat for the `discharge-for-user` form
parameter when it is non-empty — otherwise for the authorized identity's
id — and a time-before caveat of now plus 24 hours. -/
theorem checkThirdPartyCaveat_isAuthenticatedUser
    (env : Env) (st : St) (req : Request) (ci : CaveatInfo) (ai : AuthInfo)
    (args : String)
    (hauth : env.authorize (selectedOp (req.form "discharge-for-user")) = .ok ai)
    (hsub : req.form "discharge-for-user" ≠ "" →
      ∃ r, env.getIdentity (req.form "discharge-for-user") = .ok r)
    (hcond : parseCaveat ci.condition = .ok ("is-authenticated-user", args)) :
    (checkThirdPartyCaveat env st req ci).result =
      .ok [userDeclaration
            (if req.form "discharge-for-user" = "" then ai.identity.id
             else req.form "discharge-for-user"),
           timeBeforeCaveat (env.now + 24 * hour)] := by
  by_cases hd : req.form "discharge-for-user" = ""
  · rw [hd] at hauth
    simp [checkThirdPartyCaveat, hd, hauth, dispatchCaveat, hcond, dispatchCondition]
  · obtain ⟨r, hr⟩ := hsub hd
    simp [checkThirdPartyCaveat, hd, hauth, hr, dispatchCaveat, hcond,
      dispatchCondition, storeIdentity]

/-- Witness for claim C1: on the concrete fixture the check emits the
declared-username caveat for `bob` and the 24-hour time-before caveat. -/
theorem checkThirdPartyCaveat_isAuthenticatedUser_witness :
    (checkThirdPartyCaveat envAuthBob {} {} ciAuthUser).result =
      .ok [userDeclaration "bob", timeBeforeCaveat (envAuthBob.now + 24 * hour)] := by
  have h := checkThirdPartyCaveat_isAuthenticatedUser envAuthBob {} {} ciAuthUser
    bobAuth "" rfl (fun hne => absurd rfl hne) rfl
  simpa using h

/-! Claim C2. -/

/-- Claim C2: when authorization for the selected operation fails and the
rendezvous can be created, `checkThirdPartyCaveat` stores a new
rendezvous entry holding the caveat, caveat id, condition and request
origin, and returns an interaction-required error whose visit URL is the
service URL of `/v1/login?waitid=` plus the wait id, whose wait URL is
the service URL of `/v1/wait?waitid=` plus the wait id, and which carries
the underlying authorization error. -/
theorem checkThirdPartyCaveat_needLogin
    (env : Env) (st : St) (req : Request) (ci : CaveatInfo) (ae : Err)
    (hauth : env.authorize (selectedOp (req.form "discharge-for-user")) = .error ae)
    (hrv : env.newRendezvousErr = none) :
    (let info : DischargeRequestInfo :=
      { caveat := ci.caveat, caveatId := ci.id, condition := ci.condition,
        origin := req.header "Origin" }
     let r := newRendezvous st.place info
     checkThirdPartyCaveat env st req ci =
        { result := .error (.interactionRequired
            (serviceURL env.location ("/v1/login?waitid=" ++ r.1))
            (serviceURL env.location ("/v1/wait?waitid=" ++ r.1)) ae)
          st := { st with place := r.2 }
          updateCalls := [] }
      ∧ r.2.entries = st.place.entries ++ [(r.1, info)]) := by
  refine ⟨?_, rfl⟩
  simp [checkThirdPartyCaveat, hauth, needLoginError, hrv]

/-- Witness for claim C2: on the concrete fixture the check creates the
rendezvous entry and returns the interaction-required error with both
URLs pointing at the configured location. -/
theorem checkThirdPartyCaveat_needLogin_witness :
    checkThirdPartyCaveat envAuthFail {} reqWithOrigin ciAuthUser =
      { result := .error (.interactionRequired
          "https://candid.example/v1/login?waitid=wait-0"
          "https://candid.example/v1/wait?waitid=wait-0" authErrFix)
        st := { place :=
          { counter := 1
            entries := [("wait-0",
              { caveat := [1]
                caveatId := [2]
                condition := "is-authenticated-user"
                origin := "https://app.example" })] } }
        updateCalls := [] } := by
  have h := checkThirdPartyCaveat_needLogin envAuthFail {} reqWithOrigin ciAuthUser
    authErrFix rfl rfl
  exact h.1

/-! Claim C4. -/

/-- Claim C4: the required operation is the global discharge-for
operation exactly when the `discharge-for-user` form parameter is
non-empty (and `LoginOp` otherwise) — the check depends on the authorizer
only at that operation; when delegating, the named user's existence is
checked, a lookup error passing through masked to its not-found cause,
and on success the dispatch proceeds with the synthetic store identity of
the named user; without the parameter the dispatch proceeds with the
authorized identity unchanged. -/
theorem checkThirdPartyCaveat_opSelection
    (env : Env) (st : St) (req : Request) (ci : CaveatInfo) :
    (checkThirdPartyCaveat env st req ci =
      checkThirdPartyCaveat
        { env with authorize := fun _ =>
            env.authorize (if req.form "discharge-for-user" = "" then Op.loginOp
              else Op.globalOp actionDischargeFor) } st req ci) ∧
    (∀ ai e, req.form "discharge-for-user" ≠ "" →
      env.authorize (.globalOp actionDischargeFor) = .ok ai →
      env.getIdentity (req.form "discharge-for-user") = .error e →
      checkThirdPartyCaveat env st req ci =
        { result := .error (errMask e (.only [.notFound])), st := st }) ∧
    (∀ ai r, req.form "discharge-for-user" ≠ "" →
      env.authorize (.globalOp actionDischargeFor) = .ok ai →
      env.getIdentity (req.form "discharge-for-user") = .ok r →
      checkThirdPartyCaveat env st req ci =
        dispatchCaveat env st (req.form "discharge-for-user")
          (storeIdentity env (req.form "discharge-for-user")) ci) ∧
    (∀ ai, req.form "discharge-for-user" = "" →
      env.authorize .loginOp = .ok ai →
      checkThirdPartyCaveat env st req ci =
        dispatchCaveat env st (req.form "discharge-for-user") ai.identity ci) := by
  refine ⟨rfl, ?_, ?_, ?_⟩
  · intro ai e hd hauth hg
    simp [checkThirdPartyCaveat, selectedOp, hd, hauth, hg]
  · intro ai r hd hauth hg
    simp [checkThirdPartyCaveat, selectedOp, hd, hauth, hg]
  · intro ai hd hauth
    simp [checkThirdPartyCaveat, selectedOp, hd, hauth]

/-- Witness for claim C4: delegating to a missing user returns the
lookup's not-found error. -/
theorem checkThirdPartyCaveat_opSelection_witness :
    checkThirdPartyCaveat envUserMissing {} reqForBob ciAuthUser =
      { result := .error (.basic "user \"bob\" not found" (some .notFound)), st := {} } := by
  have h := (checkThirdPartyCaveat_opSelection envUserMissing {} reqForBob ciAuthUser).2.1
    ⟨⟨"admin", fun _ => .ok true⟩⟩
    (.basic ("user " ++ quoteStr "bob" ++ " not found") (some .notFound))
    (by decide) rfl rfl
  simpa [errMask, passCause, Err.message, Err.cause, quoteStr] using h

/-! Claim C5. -/

/-- Claim C5 counterexample: for `carol`, who is in none of the required
groups, the `is-member-of` check fails with a plain error that carries no
cause code at all — in particular not the `forbidden` code the claim
requires. -/
theorem isMemberOf_failure_not_forbidden :
    (checkThirdPartyCaveat envAuthCarol {} {} ciMemberOf).result =
      .error (.basic "user is not a member of required groups" none) ∧
    (Err.basic "user is not a member of required groups" none).cause ≠
      some ErrCode.forbidden := by
  constructor
  · rfl
  · decide

/-- Claim C5 as amended: on an `is-member-of` condition with a
successfully authorized identity, if the identity's `Allow` over the
whitespace-split group arguments returns true the call succeeds emitting
no additional caveats; if it returns false the call fails with the
uncoded error "user is not a member of required groups" (it carries no
`forbidden` cause). -/
theorem checkThirdPartyCaveat_isMemberOf
    (env : Env) (st : St) (req : Request) (ci : CaveatInfo) (ai : AuthInfo)
    (args : String)
    (hauth : env.authorize (selectedOp (req.form "discharge-for-user")) = .ok ai)
    (hsub : req.form "discharge-for-user" ≠ "" →
      ∃ r, env.getIdentity (req.form "discharge-for-user") = .ok r)
    (hcond : parseCaveat ci.condition = .ok ("is-member-of", args)) :
    ((if req.form "discharge-for-user" = "" then ai.identity
        else storeIdentity env (req.form "discharge-for-user")).allow
          (fields args) = .ok true →
      (checkThirdPartyCaveat env st req ci).result = .ok []) ∧
    ((if req.form "discharge-for-user" = "" then ai.identity
        else storeIdentity env (req.form "discharge-for-user")).allow
          (fields args) = .ok false →
      (checkThirdPartyCaveat env st req ci).result =
        .error (.basic "user is not a member of required groups" none)) := by
  constructor <;> intro hallow <;> by_cases hd : req.form "discharge-for-user" = ""
  · rw [hd] at hauth
    simp only [hd, if_true, eq_self_iff_true] at hallow
    simp [checkThirdPartyCaveat, hd, hauth, dispatchCaveat, hcond, dispatchCondition,
      hallow]
  · obtain ⟨r, hr⟩ := hsub hd
    simp only [if_neg hd] at hallow
    simp [checkThirdPartyCaveat, hd, hauth, hr, dispatchCaveat, hcond,
      dispatchCondition, hallow]
  · rw [hd] at hauth
    simp only [hd, if_true, eq_self_iff_true] at hallow
    simp [checkThirdPartyCaveat, hd, hauth, dispatchCaveat, hcond, dispatchCondition,
      hallow, errNewf]
  · obtain ⟨r, hr⟩ := hsub hd
    simp only [if_neg hd] at hallow
    simp [checkThirdPartyCaveat, hd, hauth, hr, dispatchCaveat, hcond,
      dispatchCondition, hallow, errNewf]

/-- Witness for the amended claim C5: `carol` is denied with the uncoded
membership error. -/
theorem checkThirdPartyCaveat_isMemberOf_witness :
    (checkThirdPartyCaveat envAuthCarol {} {} ciMemberOf).result =
      .error (.basic "user is not a member of required groups" none) := by
  have h := (checkThirdPartyCaveat_isMemberOf envAuthCarol {} {} ciMemberOf carolAuth
    "devs ops" rfl (fun hne => absurd rfl hne) rfl).2
  exact h rfl

/-! Claim C7. -/

/-- Claim C7: with a parseable condition, dispatch is an exact string
match on the parsed condition name (the first whitespace-delimited token),
and every name other than `is-authenticated-user` and `is-member-of`
makes the call fail with `ErrCaveatNotRecognized`. -/
theorem checkThirdPartyCaveat_unknownCondition
    (env : Env) (st : St) (req : Request) (ci : CaveatInfo) (ai : AuthInfo)
    (cond args : String)
    (hauth : env.authorize (selectedOp (req.form "discharge-for-user")) = .ok ai)
    (hsub : req.form "discharge-for-user" ≠ "" →
      ∃ r, env.getIdentity (req.form "discharge-for-user") = .ok r)
    (hcond : parseCaveat ci.condition = .ok (cond, args))
    (h1 : cond ≠ "is-authenticated-user") (h2 : cond ≠ "is-member-of") :
    (checkThirdPartyCaveat env st req ci).result = .error errCaveatNotRecognized := by
  by_cases hd : req.form "discharge-for-user" = ""
  · rw [hd] at hauth
    simp [checkThirdPartyCaveat, hd, hauth, dispatchCaveat, hcond, dispatchCondition,
      h1, h2]
  · obtain ⟨r, hr⟩ := hsub hd
    simp [checkThirdPartyCaveat, hd, hauth, hr, dispatchCaveat, hcond,
      dispatchCondition, h1, h2]

/-- Witness for claim C7: the condition `is-full-moon tonight` is not
recognized. -/
theorem checkThirdPartyCaveat_unknownCondition_witness :
    (checkThirdPartyCaveat envAuthBob {} {} ciFullMoon).result =
      .error errCaveatNotRecognized := by
  exact checkThirdPartyCaveat_unknownCondition envAuthBob {} {} ciFullMoon bobAuth
    "is-full-moon" "tonight" rfl (fun hne => absurd rfl hne) rfl
    (by decide) (by decide)

/-! Claim C8. -/

/-- The condition switch does not read the update-outcome field. -/
theorem dispatchCondition_updateErr (env : Env) (o : Option String) (dfu : String)
    (ident : Identity) (cond args : String) :
    dispatchCondition { env with updateErr := o } dfu ident cond args =
      dispatchCondition env dfu ident cond args := rfl

/-- The dispatch result does not depend on the update outcome. -/
theorem dispatchCaveat_result_updateErr (env : Env) (o : Option String) (st : St)
    (dfu : String) (ident : Identity) (ci : CaveatInfo) :
    (dispatchCaveat { env with updateErr := o } st dfu ident ci).result =
      (dispatchCaveat env st dfu ident ci).result := by
  cases hp : parseCaveat ci.condition with
  | error pe => simp [dispatchCaveat, hp]
  | ok p =>
    obtain ⟨cond, args⟩ := p
    cases hdc : dispatchCondition env dfu ident cond args with
    | error e => simp [dispatchCaveat, hp, dispatchCondition_updateErr, hdc]
    | ok cavs => simp [dispatchCaveat, hp, dispatchCondition_updateErr, hdc]

/-- A successful dispatch updates the discharge time of exactly the
identity in effect. -/
theorem dispatchCaveat_updateCalls (env : Env) (st : St) (dfu : String)
    (ident : Identity) (ci : CaveatInfo) (cavs : List Caveat)
    (h : (dispatchCaveat env st dfu ident ci).result = .ok cavs) :
    (dispatchCaveat env st dfu ident ci).updateCalls = [ident.id] := by
  cases hp : parseCaveat ci.condition with
  | error pe => simp [dispatchCaveat, hp] at h
  | ok p =>
    obtain ⟨cond, args⟩ := p
    cases hdc : dispatchCondition env dfu ident cond args with
    | error e => simp [dispatchCaveat, hp, hdc] at h
    | ok c => simp [dispatchCaveat, hp, hdc]

/-- Claim C8: the discharge result never depends on the outcome of the
last-discharge update (a failing update is only logged), and every run
that returns caveats has invoked the update for the possibly substituted
identity. -/
theorem checkThirdPartyCaveat_lastDischarge
    (env : Env) (st : St) (req : Request) (ci : CaveatInfo) :
    (∀ o, (checkThirdPartyCaveat { env with updateErr := o } st req ci).result =
        (checkThirdPartyCaveat env st req ci).result) ∧
    (∀ ai cavs,
        env.authorize (selectedOp (req.form "discharge-for-user")) = .ok ai →
        (checkThirdPartyCaveat env st req ci).result = .ok cavs →
        (checkThirdPartyCaveat env st req ci).updateCalls =
          [if req.form "discharge-for-user" = "" then ai.identity.id
           else req.form "discharge-for-user"]) := by
  constructor
  · intro o
    simp only [checkThirdPartyCaveat]
    cases ha : env.authorize (selectedOp (req.form "discharge-for-user")) with
    | error err => rfl
    | ok ai =>
      by_cases hd : req.form "discharge-for-user" = ""
      · simp only [hd, if_pos rfl]
        exact dispatchCaveat_result_updateErr env o st "" ai.identity ci
      · simp only [if_neg hd]
        cases hg : env.getIdentity (req.form "discharge-for-user") with
        | error e => rfl
        | ok r =>
          exact dispatchCaveat_result_updateErr env o st
            (req.form "discharge-for-user")
            (storeIdentity env (req.form "discharge-for-user")) ci
  · intro ai cavs hauth hok
    simp only [checkThirdPartyCaveat, hauth] at hok ⊢
    by_cases hd : req.form "discharge-for-user" = ""
    · simp only [hd, if_pos rfl] at hok ⊢
      exact dispatchCaveat_updateCalls env st "" ai.identity ci cavs hok
    · simp only [if_neg hd] at hok ⊢
      cases hg : env.getIdentity (req.form "discharge-for-user") with
      | error e =>
        rw [hg] at hok
        simp at hok
      | ok r =>
        rw [hg] at hok
        simp only [] at hok
        simpa [storeIdentity] using dispatchCaveat_updateCalls env st
          (req.form "discharge-for-user")
          (storeIdentity env (req.form "discharge-for-user")) ci cavs hok

/-- Witness for claim C8: on the concrete fixture the result is the same
whether the update fails or succeeds, and `bob`'s discharge time was
updated. -/
theorem checkThirdPartyCaveat_lastDischarge_witness :
    ((checkThirdPartyCaveat { envAuthBob with updateErr := some "db down" }
        {} {} ciAuthUser).result =
      (checkThirdPartyCaveat envAuthBob {} {} ciAuthUser).result) ∧
    (checkThirdPartyCaveat envAuthBob {} {} ciAuthUser).updateCalls = ["bob"] := by
  refine ⟨(checkThirdPartyCaveat_lastDischarge envAuthBob {} {} ciAuthUser).1
    (some "db down"), ?_⟩
  have h := (checkThirdPartyCaveat_lastDischarge envAuthBob {} {} ciAuthUser).2 bobAuth
    [userDeclaration "bob", timeBeforeCaveat (envAuthBob.now + 24 * hour)] rfl rfl
  simpa using h

/-! Claim C3. -/

/-- Claim C3: waiting on a rendezvous whose login succeeded first appends
a first-party client-origin caveat — for exactly the origin recorded in
the request-info at rendezvous creation — to the identity macaroon; the
discharge is then computed over the request carrying the caveated
macaroon, and every successful wait returns that caveated macaroon as the
discharge token. -/
theorem wait_appends_origin_caveat
    (denv : WaitEnv) (req : Request) (w : WaitRequest) (p0 : Place)
    (info : DischargeRequestInfo) (results : String → Option LoginResult)
    (login : LoginResult) (m0 : Macaroon) (rest : List Macaroon)
    (hfresh : ∀ pr ∈ p0.entries, pr.1 ≠ (newRendezvous p0 info).1)
    (hw : w.waitId = (newRendezvous p0 info).1)
    (henv : denv.waitResult = placeWait (newRendezvous p0 info).2 results)
    (hres : results (newRendezvous p0 info).1 = some login)
    (herr : login.error = none)
    (hmac : login.identityMacaroon = m0 :: rest) :
    waitHandler denv req w =
      (match denv.discharge
          { req with cookies := req.cookies ++
              [newIdentityCookie
                (m0.addFirstPartyCaveat (Caveat.clientOrigin info.origin).condition
                  :: rest)] }
          info.caveatId info.caveat with
       | .error e => .err (errNoteMask e "cannot discharge" .any)
       | .ok m => .ok
           { macaroon := m
             dischargeToken :=
               m0.addFirstPartyCaveat (Caveat.clientOrigin info.origin).condition
                 :: rest }
           [{ newIdentityCookie
                (m0.addFirstPartyCaveat (Caveat.clientOrigin info.origin).condition
                  :: rest) with path := "/" }]) := by
  have hplace := lookupEntry_newRendezvous p0 info hfresh
  simp [waitHandler, hw, henv, placeWait, hplace, hres, herr, hmac,
    newRendezvous_id_ne_empty p0 info, resolveCaveat, clientOriginCaveat]

/-- Witness for claim C3: waiting on the fixture rendezvous yields the
identity macaroon restricted to the recorded origin. -/
theorem wait_appends_origin_caveat_witness :
    waitHandler waitEnvFix {} waitReqFix =
      .ok { macaroon := {}
            dischargeToken := [{ caveats :=
              ["declared username alice", "origin https://app.example"] }] }
        [{ name := "macaroon-identity"
           value := [{ caveats :=
             ["declared username alice", "origin https://app.example"] }]
           path := "/" }] := by
  have h := wait_appends_origin_caveat waitEnvFix {} waitReqFix {} infoFix
    (fun _ => some loginFix) loginFix { caveats := ["declared username alice"] } []
    (by simp) rfl rfl rfl rfl rfl
  rw [h]
  decide

/-! Claim C6. -/

/-- Claim C6 counterexample: when the identity lookup fails with a
generic (non-not-found) error, `DischargeTokenForUser` wraps it with the
message "cannot get identity" — not, as the claim states for every
non-not-found error, with "cannot create discharge token". -/
theorem dischargeTokenForUser_wrap_counterexample :
    dischargeTokenForUser dtEnvBoom "dave" =
      .error (.basic "cannot get identity: boom" none) ∧
    dischargeTokenForUser dtEnvBoom "dave" ≠
      .error (.basic "cannot create discharge token: boom" none) := by
  constructor
  · rfl
  · decide

/-- Claim C6 as amended: if the user exists and minting succeeds, the
result is a macaroon bound to `LoginOp` carrying a declared-username
caveat for the user and a time-before caveat of now plus six hours; an
identity-lookup failure is wrapped with "cannot get identity", the
not-found cause passing through intact (other lookup causes are masked);
a minting failure is wrapped with "cannot create discharge token",
keeping its cause. -/
theorem dischargeTokenForUser_spec (env : DischargeTokenEnv) (username : String) :
    (∀ r, env.getIdentity username = .ok r → env.mintErr = none →
      dischargeTokenForUser env username =
        .ok { caveats := [timeBeforeCaveat (env.now + dischargeTokenDuration),
                userDeclaration username]
              ops := [Op.loginOp] }) ∧
    (∀ e, env.getIdentity username = .error e →
      dischargeTokenForUser env username =
        .error (errNoteMask e "cannot get identity" (.only [.notFound]))) ∧
    (∀ m, env.getIdentity username = .error (.basic m (some .notFound)) →
      dischargeTokenForUser env username =
        .error (.basic ("cannot get identity: " ++ m) (some .notFound))) ∧
    (∀ r e, env.getIdentity username = .ok r → env.mintErr = some e →
      dischargeTokenForUser env username =
        .error (errNoteMask e "cannot create discharge token" .any)) := by
  refine ⟨?_, ?_, ?_, ?_⟩
  · intro r hg hm
    simp [dischargeTokenForUser, hg, ovenNewMacaroon, hm]
  · intro e hg
    simp [dischargeTokenForUser, hg]
  · intro m hg
    have hs : ("cannot get identity" ++ ": " : String) = "cannot get identity: " := rfl
    simp [dischargeTokenForUser, hg, errNoteMask, Err.message, Err.cause, passCause, hs]
  · intro r e hg hm
    simp [dischargeTokenForUser, hg, ovenNewMacaroon, hm]

/-- Witness for the amended claim C6: for the existing user `dave` a
six-hour login token declaring `dave` is minted. -/
theorem dischargeTokenForUser_spec_witness :
    dischargeTokenForUser dtEnvOk "dave" =
      .ok { caveats := [timeBeforeCaveat (dtEnvOk.now + dischargeTokenDuration),
              userDeclaration "dave"]
            ops := [Op.loginOp] } :=
  (dischargeTokenForUser_spec dtEnvOk "dave").1 { username := "dave" } rfl rfl

/-! Claim C9. -/

/-- The probe loop answers method-not-allowed exactly when some probed
method other than the request's own has a matching handler, and falls
through to not-found otherwise. -/
theorem methodNotAllowedLoop_spec (lookup : String → String → Bool) (req : Request) :
    ∀ ms : List String,
      ((∃ m ∈ ms, m ≠ req.method ∧ lookup m req.path = true) →
        methodNotAllowedLoop lookup req ms = methodNotAllowedError req) ∧
      ((¬ ∃ m ∈ ms, m ≠ req.method ∧ lookup m req.path = true) →
        methodNotAllowedLoop lookup req ms = notFoundError req) := by
  intro ms
  induction ms with
  | nil =>
    refine ⟨?_, fun _ => rfl⟩
    rintro ⟨m, hm, _⟩
    exact absurd hm (List.not_mem_nil m)
  | cons a ms ih =>
    by_cases ha : a = req.method
    · constructor
      · rintro ⟨m, hm, hne, hl⟩
        rcases List.mem_cons.mp hm with h | h
        · exact absurd (h.trans ha) hne
        · simp only [methodNotAllowedLoop, if_pos ha]
          exact ih.1 ⟨m, h, hne, hl⟩
      · intro hno
        simp only [methodNotAllowedLoop, if_pos ha]
        exact ih.2 fun hex => hno (by
          obtain ⟨m, hm, hne, hl⟩ := hex
          exact ⟨m, List.mem_cons_of_mem a hm, hne, hl⟩)
    · by_cases hla : lookup a req.path = true
      · constructor
        · intro _
          simp only [methodNotAllowedLoop, if_neg ha, if_pos hla]
        · intro hno
          exact absurd ⟨a, List.mem_cons_self a ms, ha, hla⟩ hno
      · constructor
        · rintro ⟨m, hm, hne, hl⟩
          rcases List.mem_cons.mp hm with h | h
          · exact absurd (h ▸ hl) hla
          · simp only [methodNotAllowedLoop, if_neg ha, if_neg hla]
            exact ih.1 ⟨m, h, hne, hl⟩
        · intro hno
          simp only [methodNotAllowedLoop, if_neg ha, if_neg hla]
          exact ih.2 fun hex => hno (by
            obtain ⟨m, hm, hne, hl⟩ := hex
            exact ⟨m, List.mem_cons_of_mem a hm, hne, hl⟩)

/-- Claim C9: for a request whose path has no route for its own method,
the fallback answers the method-not-allowed error if and only if some
other method among GET, POST, PUT, DELETE, HEAD and PATCH has a handler
registered for the same path, and the not-found error otherwise. -/
theorem methodNotAllowed_spec (lookup : String → String → Bool) (req : Request)
    (hself : lookup req.method req.path = false) :
    ((∃ m ∈ httpMethods, m ≠ req.method ∧ lookup m req.path = true) →
      methodNotAllowed lookup req = methodNotAllowedError req) ∧
    ((¬ ∃ m ∈ httpMethods, m ≠ req.method ∧ lookup m req.path = true) →
      methodNotAllowed lookup req = notFoundError req) :=
  methodNotAllowedLoop_spec lookup req httpMethods

/-- Witness for claim C9: with only `GET /v1/wait` registered,
`PUT /v1/wait` is answered method-not-allowed and `GET /v1/nope` is
answered not-found. -/
theorem methodNotAllowed_spec_witness :
    methodNotAllowed lookupFix reqPutWait = methodNotAllowedError reqPutWait ∧
    methodNotAllowed lookupFix reqGetNope = notFoundError reqGetNope := by
  constructor
  · exact (methodNotAllowed_spec lookupFix reqPutWait (by decide)).1
      ⟨"GET", by decide, by decide, by decide⟩
  · exact (methodNotAllowed_spec lookupFix reqGetNope (by decide)).2 (by decide)

/-! Claim C10. -/

/-- Claim C10: `Wait` reads element 0 of the login result's
identity-macaroon slice without a length check, so a rendezvous whose
login result has no error but an empty macaroon slice makes the handler
panic instead of returning an error. -/
theorem wait_panics_on_empty_identityMacaroon
    (denv : WaitEnv) (req : Request) (w : WaitRequest)
    (info : DischargeRequestInfo) (login : LoginResult)
    (hw : w.waitId ≠ "")
    (hres : denv.waitResult w.waitId = .ok (info, login))
    (herr : login.error = none)
    (hmac : login.identityMacaroon = []) :
    waitHandler denv req w = .panicked "runtime error: index out of range" := by
  simp [waitHandler, hw, hres, herr, hmac]

/-- Witness for claim C10: a successful login result with an empty
macaroon slice panics the wait handler. -/
theorem wait_panics_on_empty_identityMacaroon_witness :
    waitHandler waitEnvEmptyMac {} { waitId := "wait-0" } =
      .panicked "runtime error: index out of range" :=
  wait_panics_on_empty_identityMacaroon waitEnvEmptyMac {} { waitId := "wait-0" }
    infoFix { error := none, identityMacaroon := [] } (by decide) rfl rfl rfl

end Candid
